import Mathlib

/-!
Verification development for the csv-reader repository.

The development shallowly embeds the core data transformations of the
repository: the CSV row builder (services/csvParser.ts), the column
classifier and analysis engine (services/geminiService.ts), the dashboard
outcome filter (components/Dashboard.tsx) and the rule matcher / bet-slip
builder (components/TeamMatchupPage.tsx).

JavaScript numbers are modelled as rationals, and JavaScript's
implementation-defined Date parsing is modelled as an explicit function
parameter, so every theorem about the classifier quantifies over it.
-/

/-- Model of a JavaScript cell value as produced by the CSV parser: a
number or a string (never null; empty cells become empty strings). -/
inductive Cell where
  | num (q : ℚ)
  | str (s : String)
deriving DecidableEq

/-- Model of a parsed row: the sequence of property writes performed by
the parser, in write order (a JavaScript object keyed by column name). -/
abbrev Row := List (String × Cell)

/-- Model of a JavaScript object property read over the write list: the
last write to the key wins; a key never written reads as undefined,
modelled as none. -/
def getCell : Row → String → Option Cell
  | [], _ => none
  | (a, b) :: t, k =>
    match getCell t k with
    | some c => some c
    | none => if k == a then some b else none

/-- Model of JavaScript Number(s) on a trimmed string, restricted to the
decimal forms the repository produces and consumes: an optional sign
followed by digits with an optional fractional part. The empty string
converts to 0 as in JavaScript; every other form that this model does not
cover (exponents, hex, Infinity) is treated as NaN, returned as none. -/
def digitsToNat (cs : List Char) : ℕ :=
  cs.foldl (fun a c => a * 10 + (c.toNat - 48)) 0

/-- Parse an unsigned decimal numeral (digits, optional dot, digits);
returns none when the shape is not a numeral, matching NaN. -/
def parseUnsigned (cs : List Char) : Option ℚ :=
  let intPart := cs.takeWhile Char.isDigit
  let rest := cs.dropWhile Char.isDigit
  match rest with
  | [] => if intPart.isEmpty then none else some (digitsToNat intPart : ℚ)
  | '.' :: frac =>
    if frac.all Char.isDigit && !(intPart.isEmpty && frac.isEmpty) then
      some ((digitsToNat intPart : ℚ) + (digitsToNat frac : ℚ) / (10 ^ frac.length))
    else none
  | _ => none

/-- Model of JavaScript whitespace trimming on the character list of a
string (String.trim of the standard library is avoided because its
iterator implementation does not reduce in the kernel). -/
def jsTrimChars (cs : List Char) : List Char :=
  ((cs.dropWhile Char.isWhitespace).reverse.dropWhile Char.isWhitespace).reverse

/-- Model of JavaScript Number() applied to a string (whitespace is
trimmed first; an all-whitespace string converts to 0). -/
def strToNum (s : String) : Option ℚ :=
  match jsTrimChars s.toList with
  | [] => some 0
  | '-' :: rest => (parseUnsigned rest).map (fun q => -q)
  | '+' :: rest => parseUnsigned rest
  | cs => parseUnsigned cs

/-- Model of JavaScript ToNumber on a possibly-absent cell: a number is
itself, a string goes through Number(), and undefined is NaN (none). -/
def jsToNum : Option Cell → Option ℚ
  | none => none
  | some (Cell.num q) => some q
  | some (Cell.str s) => strToNum s

/-- Model of the JavaScript comparison v >= t between a possibly-absent
cell and a number: both sides convert with ToNumber and any NaN makes the
comparison false. -/
def jsGE (v : Option Cell) (t : ℚ) : Bool :=
  match jsToNum v with
  | some q => decide (t ≤ q)
  | none => false

/-- Embedding of toNumber from components/TeamMatchupPage.tsx: a number
is returned as is, anything else goes through Number() and non-finite
results (including NaN from undefined) collapse to 0. -/
def toNumber (v : Option Cell) : ℚ :=
  match v with
  | some (Cell.num q) => q
  | v => (jsToNum v).getD 0

/-- Embedding of the MatchupRow record from components/TeamMatchupPage.tsx
(the normalized row shape used by the matchup page). -/
structure MatchupRow where
  Team : String
  Opponent : String
  Predicted : String
  Prob_Max : ℚ
  Lambda_Home : ℚ
  Lambda_Away : ℚ
  Date : String
  Div : String
deriving DecidableEq

/-- Embedding of the BetCriteriaSetting record from
components/TeamMatchupPage.tsx; optional numeric fields are Option. -/
structure BetCriteriaSetting where
  id : String
  title : String
  market : String
  groups : List String
  probMin : Option ℚ
  lambdaHomeTarget : Option ℚ
  lambdaTolerance : Option ℚ
deriving DecidableEq

/-- Embedding of rowMatchesSetting from components/TeamMatchupPage.tsx:
the three guard clauses in source order, each returning false early. -/
def rowMatchesSetting (row : MatchupRow) (setting : BetCriteriaSetting) : Bool :=
  if setting.groups.length != 0 && !(setting.groups.contains row.Predicted) then
    false
  else if (match setting.probMin with
           | some p => decide (row.Prob_Max < p)
           | none => false) then
    false
  else if (match setting.lambdaHomeTarget with
           | some target =>
             let tolerance := setting.lambdaTolerance.getD 0.05
             decide (|row.Lambda_Home - target| > tolerance)
           | none => false) then
    false
  else
    true

/-- C1: rowMatchesSetting holds exactly when all three conditions do:
group membership (or empty groups), probability lower bound (when set),
and lambda tolerance band (when set, defaulting the tolerance to 0.05);
in particular a rule with none of the three set matches every row. -/
theorem rowMatchesSetting_iff_conditions :
    ∀ (row : MatchupRow) (setting : BetCriteriaSetting),
      (rowMatchesSetting row setting = true ↔
        (setting.groups = [] ∨ row.Predicted ∈ setting.groups)
        ∧ (∀ p, setting.probMin = some p → p ≤ row.Prob_Max)
        ∧ (∀ t, setting.lambdaHomeTarget = some t →
            |row.Lambda_Home - t| ≤ setting.lambdaTolerance.getD 0.05))
      ∧ (setting.groups = [] → setting.probMin = none →
          setting.lambdaHomeTarget = none → rowMatchesSetting row setting = true) := by
  intro row setting
  obtain ⟨i, ti, m, groups, probMin, lt, tol⟩ := setting
  constructor
  · cases probMin <;> cases lt <;>
      simp [rowMatchesSetting, not_lt, List.elem_iff, forall_eq'] <;>
      cases groups <;> simp <;> tauto
  · intro hg hp hl
    subst hg
    simp_all [rowMatchesSetting]

/-- Witness for C1: a concrete row and rule where the equivalence yields a
successful match. -/
theorem rowMatchesSetting_iff_conditions_witness :
    rowMatchesSetting
      ⟨"A", "B", "1-1", 0.2, 1.52, 1.1, "", ""⟩
      ⟨"acc-btts", "Mutual Strike", "Both Teams To Score", ["1-1"],
        none, some 1.5, some 0.05⟩ = true :=
  (rowMatchesSetting_iff_conditions
      ⟨"A", "B", "1-1", 0.2, 1.52, 1.1, "", ""⟩
      ⟨"acc-btts", "Mutual Strike", "Both Teams To Score", ["1-1"],
        none, some 1.5, some 0.05⟩).1.mpr
    (by
      refine ⟨Or.inr (by decide), ?_, ?_⟩
      · intro p hp
        simp at hp
      · intro t ht
        obtain rfl : (1.5 : ℚ) = t := by injection ht
        simp only [Option.getD_some]
        rw [abs_le]
        constructor <;> norm_num)

/-- Embedding of MAX_SELECTIONS_PER_CRITERIA from
components/TeamMatchupPage.tsx. -/
def MAX_SELECTIONS_PER_CRITERIA : ℕ := 5

/-- Embedding of the BetSlipGroup record from
components/TeamMatchupPage.tsx. -/
structure BetSlipGroup where
  setting : BetCriteriaSetting
  selections : List MatchupRow
  total : ℕ
deriving DecidableEq

/-- Embedding of the accumulatorSlip / singleSlip computation from
components/TeamMatchupPage.tsx: map each setting to its matching rows,
drop the settings with no matching row, cap the displayed selections at
MAX_SELECTIONS_PER_CRITERIA and keep the true total. -/
def buildSlip (settings : List BetCriteriaSetting) (filteredRows : List MatchupRow) :
    List BetSlipGroup :=
  settings.filterMap (fun setting =>
    let selections := filteredRows.filter (fun row => rowMatchesSetting row setting)
    if selections.length = 0 then none
    else some ⟨setting, selections.take MAX_SELECTIONS_PER_CRITERIA, selections.length⟩)

/-- C5: the slip builder emits exactly one group per rule with at least
one matching row, in rule input order; each group displays the first
min(5, total) matching rows and stores the true match count. -/
theorem buildSlip_groups :
    ∀ (settings : List BetCriteriaSetting) (rows : List MatchupRow),
      buildSlip settings rows
          = (settings.filter (fun s =>
                !((rows.filter (fun r => rowMatchesSetting r s)).isEmpty))).map
              (fun s =>
                ⟨s, (rows.filter (fun r => rowMatchesSetting r s)).take
                      MAX_SELECTIONS_PER_CRITERIA,
                 (rows.filter (fun r => rowMatchesSetting r s)).length⟩)
      ∧ ∀ g ∈ buildSlip settings rows,
          g.selections.length = min MAX_SELECTIONS_PER_CRITERIA g.total ∧ 0 < g.total := by
  intro settings rows
  constructor
  · induction settings with
    | nil => rfl
    | cons s t ih =>
      simp only [buildSlip] at ih ⊢
      rw [List.filterMap_cons, List.filter_cons]
      by_cases h : (rows.filter (fun r => rowMatchesSetting r s)) = []
      · rw [ih]
        simp [h]
      · have h0 : (rows.filter (fun r => rowMatchesSetting r s)).length ≠ 0 := by
          simpa [List.length_eq_zero] using h
        rw [ih]
        simp [h0, List.isEmpty_iff, h]
  · intro g hg
    simp only [buildSlip, List.mem_filterMap] at hg
    obtain ⟨s, -, hf⟩ := hg
    by_cases h : (rows.filter (fun r => rowMatchesSetting r s)).length = 0
    · simp [h] at hf
    · simp only [if_neg h, Option.some.injEq] at hf
      subst hf
      exact ⟨List.length_take _ _, Nat.pos_of_ne_zero h⟩

/-- Witness for C5: on a rule that matches everything and a single row,
the group shows one selection and one total. -/
theorem buildSlip_groups_witness :
    (BetSlipGroup.mk ⟨"r", "t", "m", [], none, none, none⟩
        [⟨"A", "B", "1-1", 0.2, 1.5, 1.1, "", ""⟩] 1).selections.length
        = min MAX_SELECTIONS_PER_CRITERIA 1
      ∧ 0 < (BetSlipGroup.mk ⟨"r", "t", "m", [], none, none, none⟩
        [⟨"A", "B", "1-1", 0.2, 1.5, 1.1, "", ""⟩] 1).total :=
  (buildSlip_groups [⟨"r", "t", "m", [], none, none, none⟩]
      [⟨"A", "B", "1-1", 0.2, 1.5, 1.1, "", ""⟩]).2
    ⟨⟨"r", "t", "m", [], none, none, none⟩,
      [⟨"A", "B", "1-1", 0.2, 1.5, 1.1, "", ""⟩], 1⟩
    (by
      have h : buildSlip [⟨"r", "t", "m", [], none, none, none⟩]
          [⟨"A", "B", "1-1", 0.2, 1.5, 1.1, "", ""⟩]
          = [⟨⟨"r", "t", "m", [], none, none, none⟩,
              [⟨"A", "B", "1-1", 0.2, 1.5, 1.1, "", ""⟩], 1⟩] := rfl
      rw [h]
      exact List.mem_singleton_self _)

/-- Embedding of REQUIRED_PROB_HEADERS from components/Dashboard.tsx. -/
def REQUIRED_PROB_HEADERS : List String := ["Prob_HomeWin", "Prob_Draw", "Prob_AwayWin"]

/-- Embedding of the hasRequiredHeaders check from
components/Dashboard.tsx. -/
def hasRequiredHeaders (headers : List String) : Bool :=
  REQUIRED_PROB_HEADERS.all (fun h => headers.contains h)

/-- Embedding of the sureWins / draws useMemo from components/Dashboard.tsx:
with the three probability headers present, sure wins are the rows whose
home-win or away-win probability compares at least the threshold under
JavaScript comparison, and draws are the rows whose draw probability does;
without them both lists are empty. -/
def dashboardFilters (headers : List String) (data : List Row) (t1 t2 : ℚ) :
    List Row × List Row :=
  if hasRequiredHeaders headers then
    (data.filter (fun r =>
        jsGE (getCell r "Prob_HomeWin") t1 || jsGE (getCell r "Prob_AwayWin") t1),
     data.filter (fun r => jsGE (getCell r "Prob_Draw") t2))
  else ([], [])

/-- C2: with the three probability columns present, the sure-wins list is
exactly the rows passing the home-or-away threshold test and the draws
list exactly the rows passing the draw threshold test, independently, both
preserving the original row order (sublists of the data). -/
theorem dashboardFilters_characterization :
    ∀ (headers : List String) (data : List Row) (t1 t2 : ℚ),
      hasRequiredHeaders headers = true →
      (∀ r, r ∈ (dashboardFilters headers data t1 t2).1 ↔
          r ∈ data ∧ (jsGE (getCell r "Prob_HomeWin") t1
                      || jsGE (getCell r "Prob_AwayWin") t1) = true)
      ∧ (∀ r, r ∈ (dashboardFilters headers data t1 t2).2 ↔
          r ∈ data ∧ jsGE (getCell r "Prob_Draw") t2 = true)
      ∧ (dashboardFilters headers data t1 t2).1.Sublist data
      ∧ (dashboardFilters headers data t1 t2).2.Sublist data := by
  intro headers data t1 t2 h
  simp only [dashboardFilters, h, if_pos]
  exact ⟨fun r => List.mem_filter, fun r => List.mem_filter,
    List.filter_sublist data, List.filter_sublist data⟩

/-- Witness for C2: the spec's worked example, two rows with thresholds
0.8 and 0.5; the first row is a sure win and the second a draw. -/
theorem dashboardFilters_characterization_witness :
    [("Prob_HomeWin", Cell.num 0.9), ("Prob_Draw", Cell.num 0.05),
        ("Prob_AwayWin", Cell.num 0.05)]
      ∈ (dashboardFilters REQUIRED_PROB_HEADERS
          [[("Prob_HomeWin", Cell.num 0.9), ("Prob_Draw", Cell.num 0.05),
              ("Prob_AwayWin", Cell.num 0.05)],
           [("Prob_HomeWin", Cell.num 0.3), ("Prob_Draw", Cell.num 0.85),
              ("Prob_AwayWin", Cell.num 0.05)]] 0.8 0.5).1 :=
  ((dashboardFilters_characterization REQUIRED_PROB_HEADERS
      [[("Prob_HomeWin", Cell.num 0.9), ("Prob_Draw", Cell.num 0.05),
          ("Prob_AwayWin", Cell.num 0.05)],
       [("Prob_HomeWin", Cell.num 0.3), ("Prob_Draw", Cell.num 0.85),
          ("Prob_AwayWin", Cell.num 0.05)]] 0.8 0.5 rfl).1 _).mpr
    ⟨List.mem_cons_self _ _, by
      have h1 : getCell [("Prob_HomeWin", Cell.num 0.9), ("Prob_Draw", Cell.num 0.05),
          ("Prob_AwayWin", Cell.num 0.05)] "Prob_HomeWin" = some (Cell.num 0.9) := rfl
      have h2 : getCell [("Prob_HomeWin", Cell.num 0.9), ("Prob_Draw", Cell.num 0.05),
          ("Prob_AwayWin", Cell.num 0.05)] "Prob_AwayWin" = some (Cell.num 0.05) := rfl
      rw [h1, h2]
      simp only [jsGE, jsToNum, Bool.or_eq_true, decide_eq_true_eq]
      left
      norm_num⟩

/-- Concrete row for C4: the draw probability is present but the home and
away win probabilities are absent. -/
def c4Row : Row := [("Prob_Draw", Cell.num 0.5)]

/-- C4 counterexample: the claim asserts a row with absent Prob_HomeWin
and Prob_AwayWin still enters the sure-wins list when the threshold is 0;
in the code the JavaScript comparison undefined >= 0 is false, so the
sure-wins list is empty. -/
theorem dashboardFilters_absent_counterexample :
    getCell c4Row "Prob_HomeWin" = none ∧ getCell c4Row "Prob_AwayWin" = none ∧
      (dashboardFilters REQUIRED_PROB_HEADERS [c4Row] 0 0).1 = [] :=
  ⟨rfl, rfl, rfl⟩

/-- C4 amended: evaluation is total, and toNumber does coerce an absent
value to 0, but in the dashboard outcome filter an absent probability
field makes the comparison false, so such a row is excluded from the
sure-wins list at every threshold, including 0. -/
theorem dashboardFilters_absent_excluded :
    ∀ (headers : List String) (data : List Row) (t1 t2 : ℚ) (r : Row),
      getCell r "Prob_HomeWin" = none → getCell r "Prob_AwayWin" = none →
      r ∉ (dashboardFilters headers data t1 t2).1 ∧ toNumber none = 0 := by
  intro headers data t1 t2 r h1 h2
  refine ⟨?_, rfl⟩
  unfold dashboardFilters
  split
  · intro hm
    rw [List.mem_filter] at hm
    rcases hm with ⟨-, hp⟩
    rw [h1, h2] at hp
    simp [jsGE, jsToNum] at hp
  · simp

/-- Witness for C4's amended statement at the concrete row. -/
theorem dashboardFilters_absent_excluded_witness :
    c4Row ∉ (dashboardFilters REQUIRED_PROB_HEADERS [c4Row] 0 0).1
      ∧ toNumber none = 0 :=
  dashboardFilters_absent_excluded REQUIRED_PROB_HEADERS [c4Row] 0 0 c4Row rfl rfl

/-- Embedding of the three column type tags from services/geminiService.ts. -/
inductive ColType where
  | numeric
  | date
  | categorical
deriving DecidableEq

/-- Embedding of the sample taken by getColumnType in
services/geminiService.ts: the values of the column over the first 10
rows, dropping null/undefined values and the empty string. -/
def sampleOf (data : List Row) (col : String) : List Cell :=
  (((data.take 10).map (fun r => getCell r col)).filterMap id).filter
    (fun v => v != Cell.str "")

/-- Embedding of the per-value numeric test in getColumnType: a number,
or a string that is empty after trimming or converts to a number. -/
def isMostlyNumericCell : Cell → Bool
  | Cell.num _ => true
  | Cell.str s => (jsTrimChars s.toList).isEmpty || (strToNum s).isSome

/-- Model of new Set(sample).size: the number of distinct values. -/
def dedupCount (l : List Cell) : ℕ := l.dedup.length

/-- Embedding of getColumnType from services/geminiService.ts. The
per-value date test (the small-number guard composed with new Date
parsing, both implementation-defined in JavaScript) is passed in as the
dateTest parameter, and every theorem quantifies over it. -/
def getColumnType (dateTest : Cell → Bool) (data : List Row) (col : String) : ColType :=
  let sample := sampleOf data col
  if sample.isEmpty then ColType.categorical
  else if sample.all dateTest && decide (1 < dedupCount sample) then ColType.date
  else if sample.all isMostlyNumericCell && decide (1 < dedupCount sample) then ColType.numeric
  else ColType.categorical

/-- Embedding of the full-column distinct count computed in getAnalysis
(new Set over every row's value for the column, counting absent and empty
values as values too). -/
def uniqueCount (data : List Row) (col : String) : ℕ :=
  ((data.map (fun r => getCell r col)).dedup).length

/-- Embedding of the per-column analysis record built in getAnalysis. -/
structure ColProfile where
  name : String
  type : ColType
  uniqueCount : ℕ
deriving DecidableEq

/-- Embedding of the columnAnalyses computation in getAnalysis. -/
def columnAnalyses (dateTest : Cell → Bool) (headers : List String) (data : List Row) :
    List ColProfile :=
  headers.map (fun h => ⟨h, getColumnType dateTest data h, uniqueCount data h⟩)

/-- Embedding of the numericCols partition in getAnalysis. -/
def numericCols (dateTest : Cell → Bool) (headers : List String) (data : List Row) :
    List ColProfile :=
  (columnAnalyses dateTest headers data).filter (fun c => c.type == ColType.numeric)

/-- Embedding of the categoricalCols partition in getAnalysis. -/
def categoricalCols (dateTest : Cell → Bool) (headers : List String) (data : List Row) :
    List ColProfile :=
  (columnAnalyses dateTest headers data).filter (fun c => c.type == ColType.categorical)

/-- Embedding of the dateCols partition in getAnalysis. -/
def dateCols (dateTest : Cell → Bool) (headers : List String) (data : List Row) :
    List ColProfile :=
  (columnAnalyses dateTest headers data).filter (fun c => c.type == ColType.date)

/-- Model of the stable JavaScript sort by ascending uniqueCount used for
the categories insight and the bar and pie candidates. -/
def sortByUnique (l : List ColProfile) : List ColProfile :=
  l.insertionSort (fun a b => a.uniqueCount ≤ b.uniqueCount)

/-- Embedding of the barChartCandidate selection in getAnalysis. -/
def barCandidate (dateTest : Cell → Bool) (headers : List String) (data : List Row) :
    Option ColProfile :=
  (sortByUnique ((categoricalCols dateTest headers data).filter
    (fun c => decide (1 < c.uniqueCount) && decide (c.uniqueCount ≤ 20)))).head?

/-- Embedding of the pieChartCandidate selection in getAnalysis: the
first filter drops the bar candidate's column by name (when the bar
candidate is absent every column passes, as with undefined in the
source). -/
def pieCandidate (dateTest : Cell → Bool) (headers : List String) (data : List Row) :
    Option ColProfile :=
  (sortByUnique (((categoricalCols dateTest headers data).filter
      (fun c =>
        match barCandidate dateTest headers data with
        | some b => c.name != b.name
        | none => true)).filter
    (fun c => decide (1 < c.uniqueCount) && decide (c.uniqueCount ≤ 8)))).head?

/-- Embedding of the line chart suggestion in getAnalysis: needs a date
column and a numeric column, the first date column in order and the first
numeric column with more than 5 distinct values. -/
def lineCandidate (dateTest : Cell → Bool) (headers : List String) (data : List Row) :
    Option (String × String) :=
  match dateCols dateTest headers data, numericCols dateTest headers data with
  | d :: _, _ :: _ =>
    match (numericCols dateTest headers data).find? (fun c => decide (5 < c.uniqueCount)) with
    | some n => some (d.name, n.name)
    | none => none
  | _, _ => none

/-- Embedding of the scatter plot suggestion in getAnalysis: with at
least two numeric columns, sort them by descending uniqueCount and keep
the top two when both have more than one distinct value. -/
def scatterCandidate (dateTest : Cell → Bool) (headers : List String) (data : List Row) :
    Option (String × String) :=
  let nums := numericCols dateTest headers data
  if 2 ≤ nums.length then
    match nums.insertionSort (fun a b => b.uniqueCount ≤ a.uniqueCount) with
    | a :: b :: _ =>
      if decide (1 < a.uniqueCount) && decide (1 < b.uniqueCount) then some (a.name, b.name)
      else none
    | _ => none
  else none

/-- Embedding of the values kept for the average insight in getAnalysis:
only cells that are numbers (typeof v === 'number'); strings are dropped,
not coerced. -/
def numericValuesOf (data : List Row) (col : String) : List ℚ :=
  (data.map (fun r => getCell r col)).filterMap (fun v =>
    match v with
    | some (Cell.num q) => some q
    | _ => none)

/-- Embedding of the average insight in getAnalysis: emitted for the
first numeric column when it holds at least one number-typed value. -/
def meanInsightOf (dateTest : Cell → Bool) (headers : List String) (data : List Row) :
    Option (String × ℚ) :=
  match numericCols dateTest headers data with
  | [] => none
  | c :: _ =>
    let values := numericValuesOf data c.name
    if values.length = 0 then none
    else some (c.name, values.sum / (values.length : ℚ))

/-- Embedding of the unique-categories insight in getAnalysis: the
categorical column with the smallest uniqueCount. -/
def categoriesInsightOf (dateTest : Cell → Bool) (headers : List String) (data : List Row) :
    Option (String × ℕ) :=
  match sortByUnique (categoricalCols dateTest headers data) with
  | [] => none
  | c :: _ => some (c.name, c.uniqueCount)

/-- Structured rendering of the AnalysisResult produced by getAnalysis:
the summary counts, the optional insights, and the four chart suggestions
by their selected column names. -/
structure AnalysisResult where
  emptyData : Bool
  rowCount : ℕ
  colCount : ℕ
  numericCount : ℕ
  categoricalCount : ℕ
  dateCount : ℕ
  meanInsight : Option (String × ℚ)
  categoriesInsight : Option (String × ℕ)
  barSuggestion : Option String
  pieSuggestion : Option String
  lineSuggestion : Option (String × String)
  scatterSuggestion : Option (String × String)

/-- Embedding of getAnalysis from services/geminiService.ts: an empty
dataset short-circuits to the empty result; otherwise insights and the
four suggestions are computed as in the source. -/
def getAnalysis (dateTest : Cell → Bool) (headers : List String) (data : List Row) :
    AnalysisResult :=
  if data.isEmpty then
    ⟨true, 0, 0, 0, 0, 0, none, none, none, none, none, none⟩
  else
    { emptyData := false
      rowCount := data.length
      colCount := headers.length
      numericCount := (numericCols dateTest headers data).length
      categoricalCount := (categoricalCols dateTest headers data).length
      dateCount := (dateCols dateTest headers data).length
      meanInsight := meanInsightOf dateTest headers data
      categoriesInsight := categoriesInsightOf dateTest headers data
      barSuggestion := (barCandidate dateTest headers data).map (fun c => c.name)
      pieSuggestion := (pieCandidate dateTest headers data).map (fun c => c.name)
      lineSuggestion := lineCandidate dateTest headers data
      scatterSuggestion := scatterCandidate dateTest headers data }

/-- C6: a column whose sample has exactly one distinct value is
classified categorical whatever its content: both the date branch and the
numeric branch also require more than one distinct sampled value. -/
theorem getColumnType_single_value_categorical :
    ∀ (dateTest : Cell → Bool) (data : List Row) (col : String),
      dedupCount (sampleOf data col) = 1 →
      getColumnType dateTest data col = ColType.categorical := by
  intro dateTest data col h
  unfold getColumnType
  simp [h]

/-- Witness for C6: a date-like value repeated twice, with a date test
that accepts everything, still classifies as categorical. -/
theorem getColumnType_single_value_categorical_witness :
    getColumnType (fun _ => true)
      [[("A", Cell.str "2020-01-01")], [("A", Cell.str "2020-01-01")]] "A"
      = ColType.categorical :=
  getColumnType_single_value_categorical (fun _ => true)
    [[("A", Cell.str "2020-01-01")], [("A", Cell.str "2020-01-01")]] "A" (by decide)

/-- C8: the classifier is total: for any well-formed table and column it
returns one of the three tags, and an empty sample yields the categorical
default. -/
theorem getColumnType_total :
    ∀ (dateTest : Cell → Bool) (data : List Row) (col : String),
      (getColumnType dateTest data col = ColType.numeric
        ∨ getColumnType dateTest data col = ColType.date
        ∨ getColumnType dateTest data col = ColType.categorical)
      ∧ (sampleOf data col = [] → getColumnType dateTest data col = ColType.categorical) := by
  intro dateTest data col
  constructor
  · cases h : getColumnType dateTest data col
    · exact Or.inl rfl
    · exact Or.inr (Or.inl rfl)
    · exact Or.inr (Or.inr rfl)
  · intro h
    simp [getColumnType, h]

/-- Witness for C8: an all-empty column on a one-row table classifies as
categorical. -/
theorem getColumnType_total_witness :
    getColumnType (fun _ => true) [[("A", Cell.str "")]] "B" = ColType.categorical :=
  (getColumnType_total (fun _ => true) [[("A", Cell.str "")]] "B").2 (by decide)

/-- C7: when the analysis emits both a bar and a pie suggestion, the pie
column name differs from the bar column name, because the pie candidates
exclude the bar candidate's column by name. -/
theorem pieSuggestion_ne_barSuggestion :
    ∀ (dateTest : Cell → Bool) (headers : List String) (data : List Row) (b p : String),
      (getAnalysis dateTest headers data).barSuggestion = some b →
      (getAnalysis dateTest headers data).pieSuggestion = some p →
      p ≠ b := by
  intro dateTest headers data b p hb hp
  unfold getAnalysis at hb hp
  by_cases hd : data.isEmpty
  · rw [if_pos hd] at hb
    cases hb
  · rw [if_neg hd] at hb hp
    have hb' : (barCandidate dateTest headers data).map (fun c => c.name) = some b := hb
    have hp' : (pieCandidate dateTest headers data).map (fun c => c.name) = some p := hp
    rw [Option.map_eq_some'] at hb' hp'
    obtain ⟨cb, hcb, hbname⟩ := hb'
    obtain ⟨cp, hcp, hpname⟩ := hp'
    subst hbname
    subst hpname
    unfold pieCandidate at hcp
    rw [hcb] at hcp
    have hmem := List.mem_of_mem_head? hcp
    unfold sortByUnique at hmem
    have hmem2 := ((List.perm_insertionSort
      (fun a b : ColProfile => a.uniqueCount ≤ b.uniqueCount) _).mem_iff).mp hmem
    have hne := (List.mem_filter.mp (List.mem_of_mem_filter hmem2)).2
    simp only [] at hne
    intro hEq
    rw [hEq] at hne
    simp at hne

/-- Concrete table for C7: two categorical columns, A with three distinct
values and B with two. -/
def c7Data : List Row :=
  [[("A", Cell.str "x"), ("B", Cell.str "p")],
   [("A", Cell.str "y"), ("B", Cell.str "q")],
   [("A", Cell.str "z"), ("B", Cell.str "p")]]

/-- Witness for C7: on c7Data the bar suggestion picks B and the pie
suggestion picks A, and the theorem yields their disjointness. -/
theorem pieSuggestion_ne_barSuggestion_witness : ("A" : String) ≠ "B" :=
  pieSuggestion_ne_barSuggestion (fun _ => false) ["A", "B"] c7Data "B" "A"
    (by decide) (by decide)

/-- Any sampled value of a column occurs in the full column image that
uniqueCount counts over. -/
theorem mem_sampleOf_mem_image :
    ∀ {data : List Row} {col : String} {a : Cell},
      a ∈ sampleOf data col → some a ∈ data.map (fun r => getCell r col) := by
  intro data col a ha
  have h1 : a ∈ ((data.take 10).map (fun r => getCell r col)).filterMap id :=
    List.mem_of_mem_filter ha
  rw [List.mem_filterMap] at h1
  obtain ⟨b, hb, hba⟩ := h1
  obtain rfl : b = some a := hba
  rw [List.mem_map] at hb
  obtain ⟨r, hr, hrf⟩ := hb
  exact List.mem_map.mpr ⟨r, List.take_subset _ _ hr, hrf⟩

/-- More than one distinct sampled value forces at least two distinct
values in the full column. -/
theorem uniqueCount_ge_two_of_sample_varied :
    ∀ {data : List Row} {col : String},
      1 < dedupCount (sampleOf data col) → 2 ≤ uniqueCount data col := by
  intro data col h
  unfold dedupCount at h
  rw [← List.card_toFinset] at h
  obtain ⟨a, ha, b, hb, hab⟩ := Finset.one_lt_card.mp h
  rw [List.mem_toFinset] at ha hb
  unfold uniqueCount
  rw [← List.card_toFinset]
  refine Finset.one_lt_card.mpr ⟨some a, ?_, some b, ?_, ?_⟩
  · exact List.mem_toFinset.mpr (mem_sampleOf_mem_image ha)
  · exact List.mem_toFinset.mpr (mem_sampleOf_mem_image hb)
  · simpa using hab

/-- A classification other than categorical forces sample variation,
since both the date branch and the numeric branch demand it. -/
theorem sample_varied_of_not_categorical :
    ∀ {dateTest : Cell → Bool} {data : List Row} {col : String},
      getColumnType dateTest data col ≠ ColType.categorical →
      1 < dedupCount (sampleOf data col) := by
  intro dateTest data col h
  simp only [getColumnType] at h
  split at h
  · exact absurd rfl h
  · split at h
    · exact of_decide_eq_true (Bool.and_eq_true _ _ |>.mp (by assumption)).2
    · split at h
      · exact of_decide_eq_true (Bool.and_eq_true _ _ |>.mp (by assumption)).2
      · exact absurd rfl h

/-- A column classified numeric or date has at least two distinct values
over the whole column. -/
theorem uniqueCount_ge_two_of_type :
    ∀ (dateTest : Cell → Bool) (data : List Row) (col : String),
      (getColumnType dateTest data col = ColType.numeric
        ∨ getColumnType dateTest data col = ColType.date) →
      2 ≤ uniqueCount data col := by
  intro dateTest data col h
  apply uniqueCount_ge_two_of_sample_varied
  apply sample_varied_of_not_categorical
  rcases h with h | h <;> rw [h] <;> intro hc <;> cases hc

/-- With no data rows every column classifies categorical, so the numeric
partition is empty. -/
theorem numericCols_nil :
    ∀ (dateTest : Cell → Bool) (headers : List String),
      numericCols dateTest headers [] = [] := by
  intro dateTest headers
  unfold numericCols columnAnalyses
  refine List.filter_eq_nil.mpr ?_
  intro c hc
  rw [List.mem_map] at hc
  obtain ⟨h, -, rfl⟩ := hc
  have hcat : getColumnType dateTest [] h = ColType.categorical := rfl
  simp [hcat]

/-- C9: a column classified numeric or date always has a full-column
uniqueCount of at least 2, because both classifications require more than
one distinct sampled value and sampled values occur in the full column;
consequently the scatter guard passes whenever at least two numeric
columns exist. -/
theorem numeric_or_date_uniqueCount_and_scatter :
    ∀ (dateTest : Cell → Bool) (headers : List String) (data : List Row) (col : String),
      ((getColumnType dateTest data col = ColType.numeric
          ∨ getColumnType dateTest data col = ColType.date) →
        2 ≤ uniqueCount data col)
      ∧ (2 ≤ (numericCols dateTest headers data).length →
          (getAnalysis dateTest headers data).scatterSuggestion.isSome = true) := by
  intro dateTest headers data col
  refine ⟨uniqueCount_ge_two_of_type dateTest data col, ?_⟩
  intro h2
  have hdata : ¬ data.isEmpty = true := by
    intro hd
    rw [List.isEmpty_iff] at hd
    subst hd
    rw [numericCols_nil] at h2
    exact absurd h2 (by decide)
  have hscatter : (getAnalysis dateTest headers data).scatterSuggestion
      = scatterCandidate dateTest headers data := by
    unfold getAnalysis
    rw [if_neg hdata]
  rw [hscatter]
  simp only [scatterCandidate]
  rw [if_pos h2]
  have hperm := List.perm_insertionSort
    (fun a b : ColProfile => b.uniqueCount ≤ a.uniqueCount)
    (numericCols dateTest headers data)
  cases hs : (numericCols dateTest headers data).insertionSort
      (fun a b : ColProfile => b.uniqueCount ≤ a.uniqueCount) with
  | nil =>
    exfalso
    have hl := hperm.length_eq
    rw [hs] at hl
    rw [← hl] at h2
    exact absurd h2 (by simp)
  | cons a tl =>
    cases tl with
    | nil =>
      exfalso
      have hl := hperm.length_eq
      rw [hs] at hl
      rw [← hl] at h2
      exact absurd h2 (by simp)
    | cons b rest =>
      have key : ∀ c : ColProfile,
          c ∈ (numericCols dateTest headers data).insertionSort
            (fun a b : ColProfile => b.uniqueCount ≤ a.uniqueCount) →
          2 ≤ c.uniqueCount := by
        intro c hcs
        have hnum := hperm.mem_iff.mp hcs
        unfold numericCols at hnum
        have htype := (List.mem_filter.mp hnum).2
        rw [beq_iff_eq] at htype
        have hana := List.mem_of_mem_filter hnum
        unfold columnAnalyses at hana
        rw [List.mem_map] at hana
        obtain ⟨hname, -, hceq⟩ := hana
        rw [← hceq] at htype ⊢
        exact uniqueCount_ge_two_of_type dateTest data hname (Or.inl htype)
      have ha2 : 1 < a.uniqueCount :=
        key a (by rw [hs]; exact List.mem_cons_self _ _)
      have hb2 : 1 < b.uniqueCount :=
        key b (by rw [hs]; exact List.mem_cons_of_mem _ (List.mem_cons_self _ _))
      simp [ha2, hb2]

/-- Concrete table for C9's witness: two numeric columns with two
distinct values each. -/
def c9Data : List Row :=
  [[("A", Cell.num 1), ("B", Cell.num 10)],
   [("A", Cell.num 2), ("B", Cell.num 20)]]

/-- Witness for C9: on c9Data the scatter suggestion is emitted. -/
theorem numeric_or_date_uniqueCount_and_scatter_witness :
    (getAnalysis (fun _ => false) ["A", "B"] c9Data).scatterSuggestion.isSome = true :=
  (numeric_or_date_uniqueCount_and_scatter (fun _ => false) ["A", "B"] c9Data "A").2
    (by decide)

/-- Conservative stand-in for the source's per-value date test: on every
number it is false, which the source guarantees for small numbers through
the guard String(v).length < 6, and on strings it is allowed to succeed.
Any sample containing a small number therefore fails the all-values date
test whatever new Date does on the other values. -/
def dateTestNumFalse : Cell → Bool
  | Cell.num _ => false
  | Cell.str _ => true

/-- Concrete table for C3: one column mixing the numbers 1 and 3 with the
numeric-looking string "5"; the column classifies numeric (the date test
fails on the number 1 by the small-number guard, every value passes the
numeric test, and three distinct values occur). -/
def c3Data : List Row :=
  [[("A", Cell.num 1)], [("A", Cell.str "5")], [("A", Cell.num 3)]]

/-- C3 counterexample: the claim computes the mean by coercing
numeric-looking strings, which on c3Data gives (1 + 5 + 3) / 3 = 3; the
code keeps only the cells that are already numbers and reports
(1 + 3) / 2 = 2, so the emitted insight differs from the claimed one. -/
theorem meanInsight_counterexample :
    numericCols dateTestNumFalse ["A"] c3Data ≠ []
      ∧ (getAnalysis dateTestNumFalse ["A"] c3Data).meanInsight = some ("A", 2)
      ∧ ((2 : ℚ) ≠ 3) := by
  refine ⟨fun h => absurd h (by decide), ?_, by norm_num⟩
  have h1 : (getAnalysis dateTestNumFalse ["A"] c3Data).meanInsight
      = meanInsightOf dateTestNumFalse ["A"] c3Data := by
    unfold getAnalysis
    rw [if_neg (by decide)]
  rw [h1]
  have h2 : numericCols dateTestNumFalse ["A"] c3Data
      = [⟨"A", ColType.numeric, 3⟩] := by decide
  unfold meanInsightOf
  rw [h2]
  have h3 : numericValuesOf c3Data "A" = [1, 3] := by decide
  simp only [h3]
  norm_num

/-- C3 amended: the mean insight is computed from the first numeric
column using only the cells that are already numbers, excluding every
string cell (numeric-looking or not) rather than coercing it, and the
insight is omitted when no number-typed cell exists. -/
theorem meanInsight_numbers_only :
    ∀ (dateTest : Cell → Bool) (headers : List String) (data : List Row) (c : ColProfile),
      (numericCols dateTest headers data).head? = some c →
      ((numericValuesOf data c.name = [] →
          (getAnalysis dateTest headers data).meanInsight = none)
        ∧ (numericValuesOf data c.name ≠ [] →
            (getAnalysis dateTest headers data).meanInsight =
              some (c.name, (numericValuesOf data c.name).sum
                / ((numericValuesOf data c.name).length : ℚ)))) := by
  intro dateTest headers data c hc
  have hdata : ¬ data.isEmpty = true := by
    intro hd
    rw [List.isEmpty_iff] at hd
    subst hd
    rw [numericCols_nil] at hc
    cases hc
  have hmean : (getAnalysis dateTest headers data).meanInsight
      = meanInsightOf dateTest headers data := by
    unfold getAnalysis
    rw [if_neg hdata]
  cases hl : numericCols dateTest headers data with
  | nil => rw [hl] at hc; cases hc
  | cons x t =>
    rw [hl] at hc
    obtain rfl : x = c := by injection hc
    constructor
    · intro hv
      rw [hmean]
      unfold meanInsightOf
      rw [hl]
      simp [hv]
    · intro hv
      rw [hmean]
      unfold meanInsightOf
      rw [hl]
      have hlen : (numericValuesOf data x.name).length ≠ 0 := by
        simpa [List.length_eq_zero] using hv
      simp [hlen]

/-- Concrete table for the C3 witness: one numeric column holding the
numbers 1 and 3. -/
def c3NumData : List Row := [[("A", Cell.num 1)], [("A", Cell.num 3)]]

/-- Witness for C3's amended statement: on c3NumData the mean insight is
emitted over the number-typed values of column A. -/
theorem meanInsight_numbers_only_witness :
    (getAnalysis (fun _ => false) ["A"] c3NumData).meanInsight =
      some ((ColProfile.mk "A" ColType.numeric 2).name,
        (numericValuesOf c3NumData (ColProfile.mk "A" ColType.numeric 2).name).sum
          / ((numericValuesOf c3NumData (ColProfile.mk "A" ColType.numeric 2).name).length : ℚ)) :=
  (meanInsight_numbers_only (fun _ => false) ["A"] c3NumData
      (ColProfile.mk "A" ColType.numeric 2) (by decide)).2 (by decide)

/-- Embedding of the per-index field extraction in parseCSV
(services/csvParser.ts): values[index]?.trim() || '' — a missing index or
an all-whitespace field yields the empty string, anything else its
trimmed text. -/
def fieldStr (values : List String) (i : ℕ) : String :=
  match values.get? i with
  | none => ""
  | some s => (jsTrimChars s.toList).asString

/-- Embedding of the cell coercion in parseCSV: a trimmed field becomes a
number when Number(value) is not NaN and the field is non-empty,
otherwise it stays a string. -/
def coerceField (v : String) : Cell :=
  if (strToNum v).isSome && v != "" then Cell.num ((strToNum v).getD 0)
  else Cell.str v

/-- Embedding of the row construction in parseCSV: the headers are walked
in order and each one is written with its positionally matching field
(headers.forEach with values[index]). -/
def buildRow : List String → List String → Row
  | [], _ => []
  | h :: hs, values => (h, coerceField (fieldStr values 0)) :: buildRow hs values.tail

/-- Embedding of the header parsing in parseCSV: split on commas, trim
each piece. -/
def parseHeaders (line : String) : List String :=
  (line.splitOn ",").map (fun s => (jsTrimChars s.toList).asString)

/-- Embedding of parseCSV over the list of non-empty lines of the file:
fewer than two lines is the failure case, otherwise the first line gives
the headers and every further line one row. -/
def parseCSV (lines : List String) : Option (List String × List Row) :=
  match lines with
  | [] => none
  | [_] => none
  | header :: rest =>
    some (parseHeaders header,
      rest.map (fun l => buildRow (parseHeaders header) (l.splitOn ",")))

/-- Keys of a built row are exactly the headers, in order. -/
theorem keys_buildRow :
    ∀ (headers values : List String), (buildRow headers values).map Prod.fst = headers := by
  intro headers
  induction headers with
  | nil => intro values; rfl
  | cons h t ih => intro values; simp [buildRow, ih]

/-- A property read succeeds exactly on the written keys. -/
theorem getCell_isSome_iff_mem_keys :
    ∀ (r : Row) (k : String), (getCell r k).isSome = true ↔ k ∈ r.map Prod.fst := by
  intro r k
  induction r with
  | nil => simp [getCell]
  | cons p t ih =>
    obtain ⟨a, b⟩ := p
    rw [List.map_cons, List.mem_cons]
    simp only [getCell]
    cases hgc : getCell t k with
    | some c =>
      rw [hgc] at ih
      simp at ih
      simp [ih]
    | none =>
      rw [hgc] at ih
      simp at ih
      by_cases hk : k = a
      · simp [hk]
      · simp [hk, ih]

/-- With distinct headers, the cell read back for the i-th header is the
coerced i-th field. -/
theorem getCell_buildRow_nodup :
    ∀ (headers values : List String), headers.Nodup →
      ∀ i, (hi : i < headers.length) →
        getCell (buildRow headers values) (headers.get ⟨i, hi⟩)
          = some (coerceField (fieldStr values i)) := by
  intro headers
  induction headers with
  | nil =>
    intro values _ i hi
    exact absurd hi (Nat.not_lt_zero i)
  | cons h t ih =>
    intro values hnd i hi
    rw [List.nodup_cons] at hnd
    obtain ⟨hh, hnd2⟩ := hnd
    match i with
    | 0 =>
      show getCell ((h, coerceField (fieldStr values 0)) :: buildRow t values.tail) h = _
      simp only [getCell]
      have hnone : getCell (buildRow t values.tail) h = none := by
        cases hg : getCell (buildRow t values.tail) h with
        | none => rfl
        | some c =>
          exfalso
          have hmem : h ∈ (buildRow t values.tail).map Prod.fst :=
            (getCell_isSome_iff_mem_keys _ _).mp (by rw [hg]; rfl)
          rw [keys_buildRow] at hmem
          exact hh hmem
      rw [hnone]
      simp
    | Nat.succ j =>
      have hj : j < t.length := Nat.lt_of_succ_lt_succ hi
      show getCell ((h, coerceField (fieldStr values 0)) :: buildRow t values.tail)
          (t.get ⟨j, hj⟩) = _
      simp only [getCell]
      have hrec := ih values.tail hnd2 j hj
      rw [hrec]
      have hfs : fieldStr values.tail j = fieldStr values (j + 1) := by
        unfold fieldStr
        cases values <;> rfl
      rw [hfs]

/-- C10: a parsed row binds exactly the header names: a data line with
fewer fields than the header binds each missing trailing header to the
empty string, and each trimmed field is stored as a number when
Number(value) is not NaN and the field is non-empty, otherwise as the
trimmed string; no known column ever reads back as absent. -/
theorem parseCSV_row_invariants :
    ∀ (headers values : List String) (k : String),
      ((getCell (buildRow headers values) k).isSome = true ↔ k ∈ headers)
      ∧ (∀ i, values.length ≤ i → fieldStr values i = "")
      ∧ (headers.Nodup → ∀ i, (hi : i < headers.length) →
          getCell (buildRow headers values) (headers.get ⟨i, hi⟩)
            = some (coerceField (fieldStr values i)))
      ∧ (∀ v q, v ≠ "" → strToNum v = some q → coerceField v = Cell.num q)
      ∧ (∀ v, strToNum v = none → coerceField v = Cell.str v)
      ∧ coerceField "" = Cell.str "" := by
  intro headers values k
  refine ⟨?_, ?_, getCell_buildRow_nodup headers values, ?_, ?_, rfl⟩
  · rw [getCell_isSome_iff_mem_keys, keys_buildRow]
  · intro i hil
    unfold fieldStr
    rw [List.get?_eq_none.mpr hil]
  · intro v q hv hq
    unfold coerceField
    rw [hq]
    simp [hv, bne_iff_ne]
  · intro v hq
    unfold coerceField
    rw [hq]
    simp

/-- Witness for C10: a three-column header with a two-field line; the
first field stores the number 1, the second the trimmed string "x", and
the missing third field the empty string. -/
theorem parseCSV_row_invariants_witness :
    getCell (buildRow ["A", "B", "C"] ["1", " x"]) (["A", "B", "C"].get ⟨2, by decide⟩)
      = some (coerceField (fieldStr ["1", " x"] 2)) :=
  (parseCSV_row_invariants ["A", "B", "C"] ["1", " x"] "A").2.2.1 (by decide) 2 (by decide)
